import Mathlib

/-!
Verification of the HID barcode scanner service.

Strings scanned from the device are modelled as `List Char`, byte buffers as
`List Nat`.  Each namespace below embeds one source module:

* `BarCodeValidator`   — src/devices/barCodeValidator.ts (canonical detector/validator)
* `HidParserValidator` — the validator variant appended in src/devices/hidParser.ts
* `HidParser`          — the line framer in src/devices/hidParser.ts
* `TransportQueue`     — src/transport/queue.ts
* `Sender`             — src/transport/sender.ts
* `HidDiscovery`       — the polling watcher in src/devices/hidDiscovery.ts
-/

/-- The `Symbology` union type shared by both validator modules. -/
inductive Symbology where
  | Code128A
  | Code128B
  | Code128C
  | EAN13
  | EAN8
  | UPCA
  | UPCE
  | UNKNOWN
deriving DecidableEq, Repr

/-- Character class of the regex `\d` (ASCII digits 0-9). -/
def isDigitChar (c : Char) : Bool := 48 ≤ c.toNat && c.toNat ≤ 57

/-- Regex test `/^\d+$/.test(input)`: at least one character, all digits. -/
def isNumericStr (l : List Char) : Bool := !l.isEmpty && l.all isDigitChar

/-- Numeric value of a digit character (`Number(ch)` on a digit). -/
def charVal (c : Char) : Nat := c.toNat - 48

/-- `Number(s.slice(-1))`: the numeric value of the final character.  At every
call site in the source the string is a nonempty digit string, so the value is
the final digit (JS `Number("")` would give 0 for the empty string). -/
def lastCharVal (s : List Char) : Nat :=
  match s.getLast? with
  | some c => charVal c
  | none => 0

/-- An ASCII letter, the `<letter>` of the spec's general AIM-prefix pattern
`]<letter>`. -/
def isAsciiLetter (c : Char) : Bool :=
  (65 ≤ c.toNat && c.toNat ≤ 90) || (97 ≤ c.toNat && c.toNat ≤ 122)

namespace BarCodeValidator

/-- `areCharsInRange`: every character code lies between `minCode` and `maxCode`. -/
def areCharsInRange (text : List Char) (minCode maxCode : Nat) : Bool :=
  text.all (fun c => minCode ≤ c.toNat && c.toNat ≤ maxCode)

/-- `isRawCode128Payload`: legacy printable start/stop glyphs, or embedded raw
start (103/104/105) and stop (106) byte values; at least 4 characters long. -/
def isRawCode128Payload (input : List Char) : Bool :=
  if input.length < 4 then false
  else
    match input.head?, input.getLast? with
    | some first, some last =>
      if (first == 'Ì' || first == 'Ë' || first == 'Í') && last == 'Î' then true
      else (first.toNat == 103 || first.toNat == 104 || first.toNat == 105) &&
        last.toNat == 106
    | _, _ => false

/-- The weighted-sum loop of `computeEanUpcMod10`: the source walks the data
digits from the last index down to index 0 with the weight starting at 3 and
alternating 3,1; here the list is the body already reversed (rightmost digit
first), consumed left to right. -/
def mod10Sum : List Nat → Nat → Nat
  | [], _ => 0
  | d :: rest, weight => d * weight + mod10Sum rest (if weight == 3 then 1 else 3)

/-- `computeEanUpcMod10`: MOD-10 check digit over all digits except the last. -/
def computeEanUpcMod10 (code : List Char) : Nat :=
  let digits := code.map charVal
  let body := digits.dropLast
  (10 - mod10Sum body.reverse 3 % 10) % 10

/-- `expandUpcEtoUpcA`: zero-insertion table keyed on the 7th character.  The
source destructures the first 8 characters; every caller passes a string of
exactly 8 digits (shorter inputs would interpolate JS `undefined`, a case no
caller reaches, modelled as `[]`). -/
def expandUpcEtoUpcA (upcE : List Char) : List Char :=
  match upcE with
  | ns :: m1 :: m2 :: m3 :: m4 :: m5 :: e7 :: checkDigit :: _ =>
    if e7 == '0' || e7 == '1' || e7 == '2' then
      [ns, m1, m2, e7, '0', '0', '0', '0', m3, m4, m5, checkDigit]
    else if e7 == '3' then
      [ns, m1, m2, m3, '0', '0', '0', '0', '0', m4, m5, checkDigit]
    else if e7 == '4' then
      [ns, m1, m2, m3, m4, '0', '0', '0', '0', '0', m5, checkDigit]
    else
      [ns, m1, m2, m3, m4, m5, '0', '0', '0', '0', e7, checkDigit]
  | _ => []

/-- `['0','1'].includes(input.charAt(0))`. -/
def first01 (input : List Char) : Bool :=
  match input.head? with
  | some c => c == '0' || c == '1'
  | none => false

/-- The UPC-E attempt in `detectSymbology`: checksum of the UPC-A expansion
against the expansion's final digit. -/
def upcEChecksumOk (input : List Char) : Bool :=
  let expanded := expandUpcEtoUpcA input
  computeEanUpcMod10 expanded == lastCharVal expanded

/-- The EAN-8 test in `detectSymbology`: the input's own MOD-10 checksum. -/
def selfChecksumOk (input : List Char) : Bool :=
  computeEanUpcMod10 input == lastCharVal input

/-- `detectSymbology`, with its sequential `return`s flattened into an if-else
chain.  The source's length-8 block ends with an unconditional
`if (len % 2 === 0) return 'Code128-C'` (8 is even), which coincides with the
general even-length numeric rule that follows the block. -/
def detectSymbology (input : List Char) : Symbology :=
  let isNumeric := isNumericStr input
  let len := input.length
  if isNumeric && len == 13 then .EAN13
  else if isNumeric && len == 12 then .UPCA
  else if isNumeric && len == 8 && first01 input && upcEChecksumOk input then .UPCE
  else if isNumeric && len == 8 && selfChecksumOk input then .EAN8
  else if isNumeric && len % 2 == 0 then .Code128C
  else if areCharsInRange input 32 95 then .Code128A
  else if areCharsInRange input 32 126 then .Code128B
  else .UNKNOWN

inductive KeySet where
  | A
  | B
  | C
deriving DecidableEq

/-- `validateKeyboardSet`. -/
def validateKeyboardSet (input : List Char) (set : KeySet) : Bool :=
  match set with
  | .A => areCharsInRange input 32 95
  | .B => areCharsInRange input 32 126
  | .C => isNumericStr input && input.length % 2 == 0

/-- `mapCharToCode128Value`: the CODE128_A/B tables map every character with
code 32..127 to `code − 32` (the loop inserts chars 32..127 for values 0..95);
the printable fallback covers the same range, and the multi-character special
keys (FNC1 etc.) can never equal a single character, so the lookup reduces to
this range test. -/
def mapCharToCode128Value (ch : Char) : Option Nat :=
  if 32 ≤ ch.toNat && ch.toNat ≤ 127 then some (ch.toNat - 32) else none

/-- The accumulation loop of `validateRawAB`: weights 1,2,3,… over the middle
symbols; `none` when a character has no Code128 value. -/
def sumRawAB : List Char → Nat → Option Nat
  | [], _ => some 0
  | ch :: rest, weight =>
    match mapCharToCode128Value ch with
    | none => none
    | some v =>
      match sumRawAB rest (weight + 1) with
      | none => none
      | some s => some (v * weight + s)

/-- `validateRawAB`: pop the stop char, pop the checksum char, shift the start
char, then MOD-103 over the middle.  `table[startChar]` is defined exactly for
codes 32..127, i.e. when `mapCharToCode128Value` succeeds. -/
def validateRawAB (payload : List Char) (startValue : Nat) : Bool :=
  let chars1 := payload.dropLast
  match chars1.getLast?, chars1.dropLast with
  | some checksumChar, startChar :: middle =>
    if startChar.toNat != startValue && (mapCharToCode128Value startChar).isNone then
      false
    else
      match mapCharToCode128Value checksumChar with
      | none => false
      | some expected =>
        match sumRawAB middle 1 with
        | none => false
        | some s => (startValue + s) % 103 == expected
  | _, _ => false

/-- `CODE128_C[pair]` for a two-character pair: defined exactly for "00".."99". -/
def pairValueC (a b : Char) : Option Nat :=
  if isDigitChar a && isDigitChar b then some (charVal a * 10 + charVal b) else none

/-- The pair loop of `validateRawC`; an odd middle leaves the second pair
member `undefined` and the source returns false. -/
def sumRawC : List Char → Nat → Option Nat
  | [], _ => some 0
  | [_], _ => none
  | a :: b :: rest, weight =>
    match pairValueC a b with
    | none => none
    | some v =>
      match sumRawC rest (weight + 1) with
      | none => none
      | some s => some (v * weight + s)

/-- `validateRawC`.  `CODE128_C` has no single-character keys, so
`CODE128_C[startChar]` is always undefined (never 105) and
`CODE128_C[checksumChar]` always falls back to `charCodeAt(0) − 32`, which can
be negative in JS, hence the `Int` comparison. -/
def validateRawC (payload : List Char) : Bool :=
  let chars1 := payload.dropLast
  match chars1.getLast?, chars1.dropLast with
  | some checksumChar, startChar :: middle =>
    if startChar.toNat != 105 then false
    else
      let expected : Int := (checksumChar.toNat : Int) - 32
      match sumRawC middle 1 with
      | none => false
      | some s => (((105 + s) % 103 : Nat) : Int) == expected
  | _, _ => false

/-- The event payload emitted on `code:validated` (the wall-clock timestamp
field is omitted: it comes from `new Date()`, not from the input). -/
structure ValidationResult where
  barcode : List Char
  simbology : Symbology
  valid : Bool
  error : Option String
deriving DecidableEq, Repr

/-- The `try` block of `validateBarCode`: the two `throw` statements become
`Except.error`; everything else produces the (possibly reassigned) symbology
and validity. -/
def validateCore (barcodeData : List Char) : Except String (Symbology × Bool) :=
  let detected := detectSymbology barcodeData
  if isRawCode128Payload barcodeData then
    let startCode := (barcodeData.headD ' ').toNat
    if startCode == 103 then .ok (.Code128A, validateRawAB barcodeData 103)
    else if startCode == 104 then .ok (.Code128B, validateRawAB barcodeData 104)
    else if startCode == 105 then .ok (.Code128C, validateRawC barcodeData)
    else .error "Unrecognized Code128 RAW start code"
  else
    match detected with
    | .EAN13 => .ok (detected, computeEanUpcMod10 barcodeData == lastCharVal barcodeData)
    | .EAN8 => .ok (detected, computeEanUpcMod10 barcodeData == lastCharVal barcodeData)
    | .UPCA => .ok (detected, computeEanUpcMod10 barcodeData == lastCharVal barcodeData)
    | .UPCE =>
      let expanded := expandUpcEtoUpcA barcodeData
      .ok (detected, computeEanUpcMod10 expanded == lastCharVal expanded)
    | .Code128A => .ok (detected, validateKeyboardSet barcodeData .A)
    | .Code128B => .ok (detected, validateKeyboardSet barcodeData .B)
    | .Code128C => .ok (detected, validateKeyboardSet barcodeData .C)
    | .UNKNOWN => .error "Unsupported barcode format"

/-- `validateBarCode`: the `catch` turns the thrown message into
`valid = false` plus the error string; on a throw the detected symbology is
still the original `detectSymbology` result (the RAW branch reassigns it only
on the non-throwing paths). -/
def validateBarCode (barcodeData : List Char) : ValidationResult :=
  match validateCore barcodeData with
  | .ok (simb, valid) => ⟨barcodeData, simb, valid, none⟩
  | .error msg => ⟨barcodeData, detectSymbology barcodeData, false, some msg⟩

/-- The single `barCodeEmitter.emit('code:validated', …)` call at the end of
`validateBarCode`: one event per invocation. -/
def emittedResults (barcodeData : List Char) : List ValidationResult :=
  [validateBarCode barcodeData]

/-- The spec's own description of the check digit: "weight digits 3,1,3,1…
from the rightmost data digit (excluding the check digit) leftward"; the index
counts positions from the rightmost data digit. -/
def specWeightedSumAux : List Nat → Nat → Nat
  | [], _ => 0
  | d :: rest, i => d * (if i % 2 == 0 then 3 else 1) + specWeightedSumAux rest (i + 1)

/-- The spec's checksum formula `(10 − (weightedSum mod 10)) mod 10`. -/
def specCheckDigit (code : List Char) : Nat :=
  let rightmostFirst := ((code.map charVal).dropLast).reverse
  (10 - specWeightedSumAux rightmostFirst 0 % 10) % 10

/-- Membership of a symbology in the Code128 family. -/
def isCode128Family : Symbology → Bool
  | .Code128A => true
  | .Code128B => true
  | .Code128C => true
  | _ => false

end BarCodeValidator

namespace HidParserValidator

/-- `barcodeData.startsWith("]X")` for the AIM identifier checks. -/
def startsWithAim (s : List Char) (x : Char) : Bool :=
  match s with
  | ']' :: c :: _ => c == x
  | _ => false

/-- `isValidCode128A`: every character code within 32–95. -/
def isValidCode128A (s : List Char) : Bool :=
  s.all (fun c => 32 ≤ c.toNat && c.toNat ≤ 95)

/-- `isValidCode128B`: every character code within 32–126. -/
def isValidCode128B (s : List Char) : Bool :=
  s.all (fun c => 32 ≤ c.toNat && c.toNat ≤ 126)

/-- `Number(barcodeData[6])` lies in 0..9; index 6 missing means `NaN`,
which fails the range test. -/
def expansionDigitInRange (s : List Char) : Bool :=
  match s.get? 6 with
  | some c => isDigitChar c
  | none => false

/-- `detectBarcodeSymbology` from the hidParser validator variant, with its
sequential `return`s flattened into an if-else chain. -/
def detectBarcodeSymbology (s : List Char) : Symbology :=
  let isOnlyNumeric := isNumericStr s
  let len := s.length
  if startsWithAim s 'C' then .Code128C
  else if startsWithAim s 'A' then .Code128A
  else if startsWithAim s 'B' then .Code128B
  else if isOnlyNumeric && len == 13 then .EAN13
  else if isOnlyNumeric && len == 12 then .UPCA
  else if isOnlyNumeric && len == 8 && BarCodeValidator.first01 s &&
      expansionDigitInRange s then .UPCE
  else if isOnlyNumeric && len == 8 then .EAN8
  else if isOnlyNumeric && len % 2 == 0 then .Code128C
  else if isValidCode128A s then .Code128A
  else if isValidCode128B s then .Code128B
  else .UNKNOWN

end HidParserValidator

namespace HidParser

/-- `CARRIAGE_RETURN`. -/
def CR : Nat := 13

/-- `MAX_BUFFER` inside `processBuffer`. -/
def MAX_BUFFER : Nat := 16 * 1024

/-- The byte filter of `parseHidData`: keep CR and printable ASCII 0x20–0x7E. -/
def keepByte (b : Nat) : Bool := b == 13 || (32 ≤ b && b ≤ 126)

def filterChunk (data : List Nat) : List Nat := data.filter keepByte

/-- JS whitespace bytes relevant to `String.trim` in the ASCII range; only
0x20 can actually occur in a filtered buffer. -/
def isSpaceByte (b : Nat) : Bool :=
  b == 32 || b == 9 || b == 10 || b == 11 || b == 12 || b == 13

/-- `String.prototype.trim` over a byte line. -/
def trimBytes (l : List Nat) : List Nat :=
  ((l.dropWhile isSpaceByte).reverse.dropWhile isSpaceByte).reverse

/-- `cleanLine`: strip NUL bytes, then trim surrounding whitespace. -/
def cleanLine (raw : List Nat) : List Nat :=
  trimBytes (raw.filter (fun b => !(b == 0)))

/-- The `while ((crIndex = buffer.indexOf(CR)) >= 0)` loop of `processBuffer`:
the first component lists the CR-terminated segments in order, the second is
the remainder after the last CR (which therefore contains no CR). -/
def splitCR : List Nat → List (List Nat) × List Nat
  | [] => ([], [])
  | b :: rest =>
    if b == 13 then ([] :: (splitCR rest).1, (splitCR rest).2)
    else
      match splitCR rest with
      | ([], r) => ([], b :: r)
      | (l :: ls, r) => ((b :: l) :: ls, r)

/-- `buffer.slice(buffer.length - MAX_BUFFER)` when over the cap. -/
def capBuffer (buf : List Nat) : List Nat :=
  if buf.length > MAX_BUFFER then buf.drop (buf.length - MAX_BUFFER) else buf

/-- `processBuffer`: cap the buffer, strip leading CRs, then extract every
CR-terminated segment as a cleaned line, keeping the nonempty ones; returns
the emitted lines and the residual buffer. -/
def processBuffer (buf : List Nat) : List (List Nat) × List Nat :=
  let b1 := capBuffer buf
  let b2 := b1.dropWhile (fun b => b == 13)
  (((splitCR b2).1.map cleanLine).filter (fun l => !l.isEmpty), (splitCR b2).2)

/-- `parseHidData` on one chunk given the module-level `buffer` state: filter
the chunk, return early when nothing survives, otherwise append and process.
(The flush timer only affects the not-yet-emitted residual, never the lines
returned here.) -/
def parseHidData (state : List Nat) (data : List Nat) : List Nat × List (List Nat) :=
  let clean := filterChunk data
  if clean.isEmpty then (state, [])
  else
    let buf := state ++ clean
    let (lines, rest) := processBuffer buf
    (rest, lines)

/-- Feed a sequence of chunks through `parseHidData`, collecting all lines. -/
def feedChunks (state : List Nat) : List (List Nat) → List Nat × List (List Nat)
  | [] => (state, [])
  | c :: cs =>
    let (s1, ls1) := parseHidData state c
    let (s2, ls2) := feedChunks s1 cs
    (s2, ls1 ++ ls2)

/-- All scan lines emitted for a given chunking, starting from an empty buffer. -/
def emittedLines (chunks : List (List Nat)) : List (List Nat) :=
  (feedChunks [] chunks).2

/-- The spec's one-shot description of the framer output: filter the input to
CR plus printable ASCII, split at carriage returns, clean each completed line,
and suppress empty lines. -/
def linesSpec (input : List Nat) : List (List Nat) :=
  ((splitCR (filterChunk input)).1.map cleanLine).filter (fun l => !l.isEmpty)

end HidParser

namespace TransportQueue

/-- The lowdb store: `db.data.events` is re-read from disk by `init()` at the
start of every operation and written back by `db.write()` before the operation
returns, so the list below is exactly the durably persisted event list. -/
structure Store (α : Type) where
  events : List α
deriving DecidableEq

/-- `enqueueEvent`: `db.data.events.push(event)` then `db.write()`. -/
def enqueueEvent {α : Type} (s : Store α) (event : α) : Store α :=
  ⟨s.events ++ [event]⟩

/-- `getFirstEvent`: `db.data.events[0]`, no mutation, no write. -/
def getFirstEvent {α : Type} (s : Store α) : Option α :=
  s.events.head?

/-- `dequeueEvent`: `db.data.events.shift()` then `db.write()`; returns the
new store and the removed (oldest) event. -/
def dequeueEvent {α : Type} (s : Store α) : Store α × Option α :=
  (⟨s.events.tail⟩, s.events.head?)

/-- Repeatedly `dequeueEvent` until the store is empty, listing the events in
the order they come out. -/
def drainAll {α : Type} (s : Store α) : List α :=
  match h : getFirstEvent s with
  | none => []
  | some e => e :: drainAll (dequeueEvent s).1
termination_by s.events.length
decreasing_by
  simp only [getFirstEvent, List.head?_eq_some_iff] at h
  obtain ⟨t, ht⟩ := h
  simp [dequeueEvent, ht]

end TransportQueue

namespace Sender

/-- `MAX_RETRIES`. -/
def MAX_RETRIES : Nat := 3

/-- `CIRCUIT_PAUSE` in milliseconds. -/
def CIRCUIT_PAUSE : Nat := 60000

/-- Observable actions of the sender loop, in program order. -/
inductive SenderEvent where
  | attemptSend (e : Nat)
  | dequeued (e : Nat)
  | backoff (ms : Nat)
  | circuitOpened
  | coolDown (ms : Nat)
  | circuitClosed
deriving DecidableEq, Repr

/-- The drain loop of `startSender`, driven by a finite oracle of delivery
outcomes (`true` = the HTTP POST succeeded), one per attempt.  The guard
`if (running) return` keeps a single loop active, so the loop body runs on one
timeline: `att` is the inner `attempt` counter, `cf` the module-level
`consecutiveFailures`.  Execution stops when the queue empties (the outer
`break`) or the oracle is exhausted (end of the observation window). -/
def senderSteps : List Bool → List Nat → Nat → Nat → List SenderEvent
  | _, [], _, _ => []
  | [], _ :: _, _, _ => []
  | ok :: oc, e :: q, cf, att =>
    if att < MAX_RETRIES then
      if ok then
        .attemptSend e :: .dequeued e :: senderSteps oc q 0 0
      else
        let att' := att + 1
        let cf' := cf + 1
        if MAX_RETRIES ≤ cf' then
          .attemptSend e :: .circuitOpened :: .coolDown CIRCUIT_PAUSE ::
            .circuitClosed :: senderSteps oc (e :: q) 0 0
        else if att' < MAX_RETRIES then
          .attemptSend e :: .backoff (2 ^ att' * 1000) :: senderSteps oc (e :: q) cf' att'
        else
          .attemptSend e :: senderSteps oc (e :: q) cf' att'
    else
      senderSteps (ok :: oc) (e :: q) cf 0
termination_by oracle _ _ att => oracle.length * 2 + (if att < MAX_RETRIES then 0 else 1)
decreasing_by
  all_goals simp only [List.length_cons, MAX_RETRIES] at *
  all_goals split <;> omega

end Sender

namespace HidDiscovery

/-- The fields of a `HID.Device` the watcher reads (both may be absent). -/
structure Device where
  serialNumber : Option String
  path : Option String
deriving DecidableEq, Repr

/-- The module-level watcher state: `isConnected`, the cached `serialNumber`,
and `currentPath`. -/
structure WatcherState where
  isConnected : Bool
  serialNumber : Option String
  currentPath : Option String
deriving DecidableEq, Repr

inductive WatcherEvent where
  | connected (d : Device)
  | reconnected (d : Device)
  | disconnected
deriving DecidableEq, Repr

/-- JS truthiness of `serialNumber`: `undefined` and `""` are falsy. -/
def serialTruthy : Option String → Bool
  | none => false
  | some s => !(s == "")

/-- One tick of the `setInterval` poll in `listHidDevices`, given
`found = filtered[0]` (the first matching device, if any); returns the new
state and the emitted event.  The `saveDevice` diagnostic write and the log
statements are side effects with no bearing on the state machine. -/
def pollTick (st : WatcherState) (found : Option Device) :
    WatcherState × Option WatcherEvent :=
  match found with
  | none =>
    if st.isConnected then
      ({ st with isConnected := false, currentPath := none }, some .disconnected)
    else
      (st, none)
  | some d =>
    if !st.isConnected && serialTruthy st.serialNumber &&
        d.serialNumber == st.serialNumber then
      ({ st with isConnected := true, currentPath := d.path }, some (.reconnected d))
    else if !st.isConnected then
      (⟨true, d.serialNumber, d.path⟩, some (.connected d))
    else
      (st, none)

end HidDiscovery


/-! ## Supporting lemmas -/

theorem specWeightedSumAux_eq_mod10Sum (l : List Nat) :
    ∀ i, BarCodeValidator.specWeightedSumAux l i =
      BarCodeValidator.mod10Sum l (if i % 2 == 0 then 3 else 1) := by
  induction l with
  | nil =>
    intro i
    simp [BarCodeValidator.specWeightedSumAux, BarCodeValidator.mod10Sum]
  | cons d rest ih =>
    intro i
    by_cases h : i % 2 = 0
    · have h1 : (i + 1) % 2 = 1 := by omega
      simp [BarCodeValidator.specWeightedSumAux, BarCodeValidator.mod10Sum, h, h1, ih]
    · have h0 : i % 2 = 1 := by omega
      have h1 : (i + 1) % 2 = 0 := by omega
      simp [BarCodeValidator.specWeightedSumAux, BarCodeValidator.mod10Sum, h0, h1, ih]

theorem specCheckDigit_eq_computeEanUpcMod10 (code : List Char) :
    BarCodeValidator.specCheckDigit code = BarCodeValidator.computeEanUpcMod10 code := by
  simp [BarCodeValidator.specCheckDigit, BarCodeValidator.computeEanUpcMod10,
    specWeightedSumAux_eq_mod10Sum]

theorem numeric_not_raw {s : List Char} (h : isNumericStr s = true) :
    BarCodeValidator.isRawCode128Payload s = false := by
  have hall : ∀ c ∈ s, isDigitChar c = true := by
    simp only [isNumericStr, Bool.and_eq_true, List.all_eq_true] at h
    exact h.2
  match s with
  | [] => rfl
  | c :: t =>
    have hc := hall c (List.mem_cons_self c t)
    have hcn : 48 ≤ c.toNat ∧ c.toNat ≤ 57 := by
      simpa [isDigitChar, Bool.and_eq_true, decide_eq_true_eq] using hc
    unfold BarCodeValidator.isRawCode128Payload
    split
    · rfl
    · obtain ⟨last, hlast⟩ : ∃ x, (c :: t).getLast? = some x := by
        cases hgl : (c :: t).getLast? with
        | none => simp at hgl
        | some x => exact ⟨x, rfl⟩
      have h1 : (c == 'Ì') = false := by
        refine beq_eq_false_iff_ne.mpr ?_
        intro he
        subst he
        revert hcn
        decide
      have h2 : (c == 'Ë') = false := by
        refine beq_eq_false_iff_ne.mpr ?_
        intro he
        subst he
        revert hcn
        decide
      have h3 : (c == 'Í') = false := by
        refine beq_eq_false_iff_ne.mpr ?_
        intro he
        subst he
        revert hcn
        decide
      have h4 : (c.toNat == 103) = false := by
        simp only [beq_eq_false_iff_ne]
        omega
      have h5 : (c.toNat == 104) = false := by
        simp only [beq_eq_false_iff_ne]
        omega
      have h6 : (c.toNat == 105) = false := by
        simp only [beq_eq_false_iff_ne]
        omega
      simp [hlast, h1, h2, h3, h4, h5, h6]

theorem detect_numeric_13 {s : List Char} (hnum : isNumericStr s = true)
    (hlen : s.length = 13) : BarCodeValidator.detectSymbology s = .EAN13 := by
  simp [BarCodeValidator.detectSymbology, hnum, hlen]

theorem detect_numeric_12 {s : List Char} (hnum : isNumericStr s = true)
    (hlen : s.length = 12) : BarCodeValidator.detectSymbology s = .UPCA := by
  simp [BarCodeValidator.detectSymbology, hnum, hlen]

theorem validate_mod10 {s : List Char} (hnum : isNumericStr s = true)
    (hdet : BarCodeValidator.detectSymbology s = .EAN13 ∨
      BarCodeValidator.detectSymbology s = .UPCA ∨
      BarCodeValidator.detectSymbology s = .EAN8) :
    (BarCodeValidator.validateBarCode s).valid =
      (BarCodeValidator.computeEanUpcMod10 s == lastCharVal s) := by
  have hraw := numeric_not_raw hnum
  rcases hdet with h | h | h <;>
    simp [BarCodeValidator.validateBarCode, BarCodeValidator.validateCore, hraw, h]

/-! ## C1 -/

/-- C1: for every all-digit string classified EAN-13 (length 13), UPC-A
(length 12) or EAN-8 (length 8 with `detectSymbology` returning EAN-8),
`validateBarCode` reports `valid = true` iff the MOD-10 check digit of the
spec's formula — weights 3,1,3,1,… from the rightmost data digit, then
`(10 − (weightedSum mod 10)) mod 10` — equals the string's final digit. -/
theorem c1_mod10_validation (s : List Char) (hnum : isNumericStr s = true)
    (hcase : s.length = 13 ∨ s.length = 12 ∨
      BarCodeValidator.detectSymbology s = .EAN8) :
    ((s.length = 13 → BarCodeValidator.detectSymbology s = .EAN13) ∧
      (s.length = 12 → BarCodeValidator.detectSymbology s = .UPCA)) ∧
    ((BarCodeValidator.validateBarCode s).valid = true ↔
      BarCodeValidator.specCheckDigit s = lastCharVal s) := by
  refine ⟨⟨fun h => detect_numeric_13 hnum h, fun h => detect_numeric_12 hnum h⟩, ?_⟩
  have hdet : BarCodeValidator.detectSymbology s = .EAN13 ∨
      BarCodeValidator.detectSymbology s = .UPCA ∨
      BarCodeValidator.detectSymbology s = .EAN8 := by
    rcases hcase with h | h | h
    · exact Or.inl (detect_numeric_13 hnum h)
    · exact Or.inr (Or.inl (detect_numeric_12 hnum h))
    · exact Or.inr (Or.inr h)
  rw [validate_mod10 hnum hdet]
  simp [beq_iff_eq, specCheckDigit_eq_computeEanUpcMod10]

/-- C1 witness: the known-good vector "4006381333931" is classified EAN-13 and
validates true. -/
theorem c1_mod10_validation_witness :
    isNumericStr "4006381333931".data = true ∧
    BarCodeValidator.detectSymbology "4006381333931".data = .EAN13 ∧
    (BarCodeValidator.validateBarCode "4006381333931".data).valid = true := by
  refine ⟨by decide, ?_, ?_⟩
  · exact (c1_mod10_validation "4006381333931".data (by decide)
      (Or.inl (by decide))).1.1 (by decide)
  · exact (c1_mod10_validation "4006381333931".data (by decide)
      (Or.inl (by decide))).2.mpr (by decide)

/-! ## C3 -/

/-- C3: an all-digit length-8 input starting with 0 or 1 is classified UPC-E
exactly when the MOD-10 checksum of its UPC-A expansion matches the
expansion's final digit, else EAN-8 exactly when the input itself is
checksum-valid, else Code128-C. -/
theorem c3_len8_detection (s : List Char) (hnum : isNumericStr s = true)
    (hlen : s.length = 8) (hfirst : BarCodeValidator.first01 s = true) :
    BarCodeValidator.detectSymbology s =
      (if BarCodeValidator.specCheckDigit (BarCodeValidator.expandUpcEtoUpcA s) =
          lastCharVal (BarCodeValidator.expandUpcEtoUpcA s) then .UPCE
       else if BarCodeValidator.specCheckDigit s = lastCharVal s then .EAN8
       else .Code128C) := by
  have e1 := specCheckDigit_eq_computeEanUpcMod10 (BarCodeValidator.expandUpcEtoUpcA s)
  have e2 := specCheckDigit_eq_computeEanUpcMod10 s
  by_cases h1 : BarCodeValidator.computeEanUpcMod10 (BarCodeValidator.expandUpcEtoUpcA s) =
      lastCharVal (BarCodeValidator.expandUpcEtoUpcA s)
  · simp [BarCodeValidator.detectSymbology, hnum, hlen, hfirst,
      BarCodeValidator.upcEChecksumOk, e1, h1]
  · by_cases h2 : BarCodeValidator.computeEanUpcMod10 s = lastCharVal s
    · simp [BarCodeValidator.detectSymbology, hnum, hlen, hfirst,
        BarCodeValidator.upcEChecksumOk, BarCodeValidator.selfChecksumOk, e1, e2, h1, h2]
    · simp [BarCodeValidator.detectSymbology, hnum, hlen, hfirst,
        BarCodeValidator.upcEChecksumOk, BarCodeValidator.selfChecksumOk, e1, e2, h1, h2]

/-- C3 witness: "01234565" (8 digits, leading 0) takes the UPC-E branch. -/
theorem c3_len8_detection_witness :
    isNumericStr "01234565".data = true ∧
    BarCodeValidator.first01 "01234565".data = true ∧
    BarCodeValidator.detectSymbology "01234565".data = .UPCE := by
  refine ⟨by decide, by decide, ?_⟩
  have h := c3_len8_detection "01234565".data (by decide) (by decide) (by decide)
  rw [h]
  decide

/-! ## C4 -/

/-- C4: on every 8-digit decimal string, `expandUpcEtoUpcA` is total and
deterministic, producing exactly the fixed zero-insertion table keyed on the
7th digit (buckets 0–2, 3, 4, 5–9), a 12-digit all-decimal result, with the
original 8th digit carried over unchanged as the final (check) digit. -/
theorem c4_upce_expansion (ns m1 m2 m3 m4 m5 e7 cd : Char)
    (hall : isNumericStr [ns, m1, m2, m3, m4, m5, e7, cd] = true) :
    BarCodeValidator.expandUpcEtoUpcA [ns, m1, m2, m3, m4, m5, e7, cd] =
      (if e7 == '0' || e7 == '1' || e7 == '2' then
        [ns, m1, m2, e7, '0', '0', '0', '0', m3, m4, m5, cd]
      else if e7 == '3' then
        [ns, m1, m2, m3, '0', '0', '0', '0', '0', m4, m5, cd]
      else if e7 == '4' then
        [ns, m1, m2, m3, m4, '0', '0', '0', '0', '0', m5, cd]
      else
        [ns, m1, m2, m3, m4, m5, '0', '0', '0', '0', e7, cd]) ∧
    (BarCodeValidator.expandUpcEtoUpcA [ns, m1, m2, m3, m4, m5, e7, cd]).length = 12 ∧
    isNumericStr (BarCodeValidator.expandUpcEtoUpcA [ns, m1, m2, m3, m4, m5, e7, cd]) =
      true ∧
    (BarCodeValidator.expandUpcEtoUpcA [ns, m1, m2, m3, m4, m5, e7, cd]).getLast? =
      some cd := by
  have hdig : isDigitChar ns = true ∧ isDigitChar m1 = true ∧ isDigitChar m2 = true ∧
      isDigitChar m3 = true ∧ isDigitChar m4 = true ∧ isDigitChar m5 = true ∧
      isDigitChar e7 = true ∧ isDigitChar cd = true := by
    simpa [isNumericStr, List.all_cons, Bool.and_eq_true] using hall
  obtain ⟨hns, hm1, hm2, hm3, hm4, hm5, he7, hcd⟩ := hdig
  have h0 : isDigitChar '0' = true := by decide
  by_cases h1 : (e7 == '0' || e7 == '1' || e7 == '2') = true
  · refine ⟨?_, ?_, ?_, ?_⟩ <;>
      simp [BarCodeValidator.expandUpcEtoUpcA, h1, isNumericStr, List.all_cons,
        hns, hm1, hm2, hm3, hm4, hm5, he7, hcd, h0]
  · rw [Bool.not_eq_true] at h1
    by_cases h2 : (e7 == '3') = true
    · refine ⟨?_, ?_, ?_, ?_⟩ <;>
        simp [BarCodeValidator.expandUpcEtoUpcA, h1, h2, isNumericStr, List.all_cons,
          hns, hm1, hm2, hm3, hm4, hm5, he7, hcd, h0]
    · rw [Bool.not_eq_true] at h2
      by_cases h3 : (e7 == '4') = true
      · refine ⟨?_, ?_, ?_, ?_⟩ <;>
          simp [BarCodeValidator.expandUpcEtoUpcA, h1, h2, h3, isNumericStr, List.all_cons,
            hns, hm1, hm2, hm3, hm4, hm5, he7, hcd, h0]
      · rw [Bool.not_eq_true] at h3
        refine ⟨?_, ?_, ?_, ?_⟩ <;>
          simp [BarCodeValidator.expandUpcEtoUpcA, h1, h2, h3, isNumericStr, List.all_cons,
            hns, hm1, hm2, hm3, hm4, hm5, he7, hcd, h0]

/-- C4 witness: the expansion of "01234565" (bucket 5–9). -/
theorem c4_upce_expansion_witness :
    isNumericStr ['0', '1', '2', '3', '4', '5', '6', '5'] = true ∧
    BarCodeValidator.expandUpcEtoUpcA ['0', '1', '2', '3', '4', '5', '6', '5'] =
      ['0', '1', '2', '3', '4', '5', '0', '0', '0', '0', '6', '5'] ∧
    (BarCodeValidator.expandUpcEtoUpcA ['0', '1', '2', '3', '4', '5', '6', '5']).length =
      12 ∧
    (BarCodeValidator.expandUpcEtoUpcA ['0', '1', '2', '3', '4', '5', '6', '5']).getLast? =
      some '5' := by
  have h := c4_upce_expansion '0' '1' '2' '3' '4' '5' '6' '5' (by decide)
  refine ⟨by decide, ?_, h.2.1, h.2.2.2⟩
  rw [h.1]
  decide

/-! ## C10 -/

/-- C10: the empty input passes detection as Code128-A (the ASCII 32–95 range
check is vacuously true, the numeric rules do not match) and `validateBarCode`
reports it valid with no error. -/
theorem c10_empty_string :
    BarCodeValidator.validateBarCode [] =
      ⟨[], .Code128A, true, none⟩ ∧
    BarCodeValidator.detectSymbology [] = .Code128A ∧
    BarCodeValidator.areCharsInRange [] 32 95 = true ∧
    isNumericStr [] = false := by
  decide

/-! ## C5 -/

/-- C5: for every input, `validateBarCode` emits exactly one
`ValidationResult`; a result carrying an error string always has
`valid = false`; and the UNKNOWN-symbology (non-raw) case produces
`valid = false` with the descriptive error "Unsupported barcode format" — the
thrown error is absorbed by the catch, never escaping the validator. -/
theorem c5_single_result (s : List Char) :
    (BarCodeValidator.emittedResults s).length = 1 ∧
    ((BarCodeValidator.validateBarCode s).error.isSome = true →
      (BarCodeValidator.validateBarCode s).valid = false) ∧
    (BarCodeValidator.detectSymbology s = .UNKNOWN →
      BarCodeValidator.isRawCode128Payload s = false →
      (BarCodeValidator.validateBarCode s).valid = false ∧
      (BarCodeValidator.validateBarCode s).error = some "Unsupported barcode format") := by
  refine ⟨rfl, ?_, ?_⟩
  · cases h : BarCodeValidator.validateCore s <;>
      simp [BarCodeValidator.validateBarCode, h]
  · intro hdet hraw
    simp [BarCodeValidator.validateBarCode, BarCodeValidator.validateCore, hdet, hraw]

/-- C5 witness: a single unrecognized character fails closed with the
descriptive error. -/
theorem c5_single_result_witness :
    (BarCodeValidator.emittedResults ['È']).length = 1 ∧
    BarCodeValidator.detectSymbology ['È'] = .UNKNOWN ∧
    (BarCodeValidator.validateBarCode ['È']).valid = false ∧
    (BarCodeValidator.validateBarCode ['È']).error = some "Unsupported barcode format" := by
  refine ⟨(c5_single_result ['È']).1, by decide, ?_, ?_⟩
  · exact ((c5_single_result ['È']).2.2 (by decide) (by decide)).1
  · exact ((c5_single_result ['È']).2.2 (by decide) (by decide)).2

/-! ## C2 -/

/-- C2 counterexample: the claim says any input beginning with `]` followed by
a letter is classified into the Code128 family regardless of its content, but
appending one character outside ASCII 32–126 yields UNKNOWN in both detectors
(the canonical `detectSymbology` has no AIM-prefix rule at all, and
`detectBarcodeSymbology` has prefix rules only for `]A`/`]B`/`]C`). -/
theorem c2_counterexample :
    isAsciiLetter 'A' = true ∧ isAsciiLetter 'E' = true ∧
    BarCodeValidator.detectSymbology (']' :: 'A' :: ['È']) = .UNKNOWN ∧
    HidParserValidator.detectBarcodeSymbology (']' :: 'E' :: ['È']) = .UNKNOWN ∧
    BarCodeValidator.isCode128Family .UNKNOWN = false := by
  decide

theorem areCharsInRange_95_to_126 {l : List Char}
    (h : BarCodeValidator.areCharsInRange l 32 95 = true) :
    BarCodeValidator.areCharsInRange l 32 126 = true := by
  simp only [BarCodeValidator.areCharsInRange, List.all_eq_true] at h ⊢
  intro x hx
  have hb := h x hx
  simp only [Bool.and_eq_true, decide_eq_true_eq] at hb ⊢
  omega

/-- C2 amended: the canonical `detectSymbology` applies no AIM-prefix rule;
an input beginning with `]` plus a letter lands in the Code128 family exactly
when all of its characters lie in ASCII 32–126 (Code128-A when they all fit
32–95, else Code128-B) and is UNKNOWN otherwise.  The `detectBarcodeSymbology`
variant applies prefix rules — first, before every other rule — only for the
specific identifiers `]C`, `]A`, `]B`.  The concrete scan line
"]E08410376012699d" classifies Code128-B (Code128 family) in both. -/
theorem c2_aim_detection (c : Char) (rest : List Char) (hc : isAsciiLetter c = true) :
    (BarCodeValidator.areCharsInRange (']' :: c :: rest) 32 126 = true →
      BarCodeValidator.isCode128Family
        (BarCodeValidator.detectSymbology (']' :: c :: rest)) = true) ∧
    (BarCodeValidator.areCharsInRange (']' :: c :: rest) 32 126 = false →
      BarCodeValidator.detectSymbology (']' :: c :: rest) = .UNKNOWN) ∧
    HidParserValidator.detectBarcodeSymbology (']' :: 'C' :: rest) = .Code128C ∧
    HidParserValidator.detectBarcodeSymbology (']' :: 'A' :: rest) = .Code128A ∧
    HidParserValidator.detectBarcodeSymbology (']' :: 'B' :: rest) = .Code128B ∧
    BarCodeValidator.detectSymbology "]E08410376012699d".data = .Code128B ∧
    HidParserValidator.detectBarcodeSymbology "]E08410376012699d".data = .Code128B := by
  have hnum : isNumericStr (']' :: c :: rest) = false := by
    simp [isNumericStr, List.all_cons, show isDigitChar ']' = false from by decide]
  refine ⟨?_, ?_, ?_, ?_, ?_, by decide, by decide⟩
  · intro h126
    by_cases h95 : BarCodeValidator.areCharsInRange (']' :: c :: rest) 32 95 = true
    · simp [BarCodeValidator.detectSymbology, hnum, h95, BarCodeValidator.isCode128Family]
    · rw [Bool.not_eq_true] at h95
      simp [BarCodeValidator.detectSymbology, hnum, h95, h126,
        BarCodeValidator.isCode128Family]
  · intro h126
    have h95 : BarCodeValidator.areCharsInRange (']' :: c :: rest) 32 95 = false := by
      cases h : BarCodeValidator.areCharsInRange (']' :: c :: rest) 32 95 with
      | false => rfl
      | true => rw [areCharsInRange_95_to_126 h] at h126; exact absurd h126 (by simp)
    simp [BarCodeValidator.detectSymbology, hnum, h95, h126]
  · simp [HidParserValidator.detectBarcodeSymbology, HidParserValidator.startsWithAim]
  · simp [HidParserValidator.detectBarcodeSymbology, HidParserValidator.startsWithAim]
  · simp [HidParserValidator.detectBarcodeSymbology, HidParserValidator.startsWithAim]

/-- C2 witness: the scan line "]E08410376012699d" starts with `]` plus the
letter E, all its characters lie in 32–126, and it classifies into the family. -/
theorem c2_aim_detection_witness :
    isAsciiLetter 'E' = true ∧
    BarCodeValidator.areCharsInRange (']' :: 'E' :: "08410376012699d".data) 32 126 =
      true ∧
    BarCodeValidator.isCode128Family
      (BarCodeValidator.detectSymbology (']' :: 'E' :: "08410376012699d".data)) = true := by
  refine ⟨by decide, by decide, ?_⟩
  exact (c2_aim_detection 'E' "08410376012699d".data (by decide)).1 (by decide)

/-! ## C7 -/

/-- C7: with three consecutive delivery failures from a fresh state, the
sender attempts the head entry three times (backing off 2 s then 4 s), then
opens the circuit and — with no further attempt of any entry, including this
one — waits out the 60 s cool-down, closes the circuit, resets the
consecutive-failure counter, and resumes exactly one fresh attempt cycle on
the same, still-queued, never-dequeued head entry. -/
theorem c7_circuit_breaker (e : Nat) (q : List Nat) (rest : List Bool) :
    Sender.senderSteps (false :: false :: false :: rest) (e :: q) 0 0 =
      [.attemptSend e, .backoff 2000, .attemptSend e, .backoff 4000, .attemptSend e,
        .circuitOpened, .coolDown 60000, .circuitClosed] ++
        Sender.senderSteps rest (e :: q) 0 0 ∧
    Sender.SenderEvent.dequeued e ∉
      ([.attemptSend e, .backoff 2000, .attemptSend e, .backoff 4000, .attemptSend e,
        .circuitOpened, .coolDown 60000, .circuitClosed] : List Sender.SenderEvent) ∧
    (∀ b rest', rest = b :: rest' →
      (Sender.senderSteps rest (e :: q) 0 0).head? = some (.attemptSend e)) := by
  refine ⟨?_, by simp, ?_⟩
  · simp [Sender.senderSteps, Sender.MAX_RETRIES, Sender.CIRCUIT_PAUSE]
  · rintro b rest' rfl
    cases b <;> simp [Sender.senderSteps, Sender.MAX_RETRIES, Sender.CIRCUIT_PAUSE]

/-- C7 witness: three failures then a success on a one-entry queue. -/
theorem c7_circuit_breaker_witness :
    Sender.senderSteps [false, false, false, true] [7] 0 0 =
      [.attemptSend 7, .backoff 2000, .attemptSend 7, .backoff 4000, .attemptSend 7,
        .circuitOpened, .coolDown 60000, .circuitClosed, .attemptSend 7, .dequeued 7] ∧
    (Sender.senderSteps [true] [7] 0 0).head? = some (.attemptSend 7) := by
  have h := c7_circuit_breaker 7 [] [true]
  refine ⟨?_, h.2.2 true [] rfl⟩
  rw [h.1]
  simp [Sender.senderSteps, Sender.MAX_RETRIES]

/-! ## C8 -/

theorem drainAll_eq_events {α : Type} (s : TransportQueue.Store α) :
    TransportQueue.drainAll s = s.events := by
  obtain ⟨l⟩ := s
  induction l with
  | nil =>
    rw [TransportQueue.drainAll]
    rfl
  | cons x t ih =>
    rw [TransportQueue.drainAll]
    simpa [TransportQueue.getFirstEvent, TransportQueue.dequeueEvent] using ih

theorem foldl_enqueue_events {α : Type} (es : List α) :
    ∀ b : List α,
      (es.foldl TransportQueue.enqueueEvent ⟨b⟩).events = b ++ es := by
  induction es with
  | nil => intro b; simp
  | cons x t ih =>
    intro b
    simpa [TransportQueue.enqueueEvent] using ih (b ++ [x])

/-- C8: the delivery queue is strict FIFO — `enqueueEvent` appends at the back
of the persisted list, `getFirstEvent` returns the oldest entry without
removing it, `dequeueEvent` removes exactly the oldest entry leaving the rest
in their original relative order, and draining a queue built by successive
enqueues yields the entries in strict insertion order. -/
theorem c8_fifo_queue {α : Type} (es : List α) (s : TransportQueue.Store α) (x : α) :
    TransportQueue.drainAll (es.foldl TransportQueue.enqueueEvent ⟨[]⟩) = es ∧
    (TransportQueue.enqueueEvent s x).events = s.events ++ [x] ∧
    TransportQueue.getFirstEvent s = s.events.head? ∧
    (TransportQueue.dequeueEvent s).1.events = s.events.tail ∧
    (TransportQueue.dequeueEvent s).2 = s.events.head? := by
  refine ⟨?_, rfl, rfl, rfl, rfl⟩
  rw [drainAll_eq_events, foldl_enqueue_events]
  simp

/-! ## C9 -/

/-- C9 counterexample: a device whose serial number is the empty string is
cached on first connect; after a disconnect it reappears with a serial equal
to the cached one, yet the watcher emits a fresh `connected`, not
`reconnected`, because JS truthiness treats the cached `""` as absent. -/
theorem c9_counterexample :
    (HidDiscovery.pollTick ⟨false, none, none⟩ (some ⟨some "", some "p"⟩)).2 =
      some (.connected ⟨some "", some "p"⟩) ∧
    (HidDiscovery.pollTick ⟨false, none, none⟩ (some ⟨some "", some "p"⟩)).1 =
      ⟨true, some "", some "p"⟩ ∧
    HidDiscovery.pollTick ⟨true, some "", some "p"⟩ none =
      (⟨false, some "", none⟩, some .disconnected) ∧
    (HidDiscovery.pollTick ⟨false, some "", none⟩ (some ⟨some "", some "p"⟩)).2 =
      some (.connected ⟨some "", some "p"⟩) ∧
    (HidDiscovery.pollTick ⟨false, some "", none⟩ (some ⟨some "", some "p"⟩)).2 ≠
      some (.reconnected ⟨some "", some "p"⟩) := by
  decide

/-- C9 amended: from a connected state, a poll that finds no device emits
`disconnected` and retains the cached serial number; provided the cached
serial is a non-empty string (JS truthiness), a later poll finding a device
with that same serial emits `reconnected`, not a fresh `connected`. -/
theorem c9_reconnect (st : HidDiscovery.WatcherState) (sn : String)
    (d : HidDiscovery.Device) (hconn : st.isConnected = true)
    (hser : st.serialNumber = some sn) :
    (HidDiscovery.pollTick st none).2 = some .disconnected ∧
    (HidDiscovery.pollTick st none).1.serialNumber = some sn ∧
    (HidDiscovery.pollTick st none).1.isConnected = false ∧
    (sn ≠ "" → d.serialNumber = some sn →
      (HidDiscovery.pollTick (HidDiscovery.pollTick st none).1 (some d)).2 =
        some (.reconnected d)) := by
  refine ⟨?_, ?_, ?_, ?_⟩
  · simp [HidDiscovery.pollTick, hconn]
  · simp [HidDiscovery.pollTick, hconn, hser]
  · simp [HidDiscovery.pollTick, hconn]
  · intro hsn hd
    have hbeq : (sn == "") = false := beq_eq_false_iff_ne.mpr hsn
    simp [HidDiscovery.pollTick, HidDiscovery.serialTruthy, hconn, hser, hd, hbeq]

/-- C9 witness: a real serial "SN1" disconnects and then reconnects. -/
theorem c9_reconnect_witness :
    (HidDiscovery.pollTick ⟨true, some "SN1", some "p"⟩ none).2 = some .disconnected ∧
    (HidDiscovery.pollTick ⟨true, some "SN1", some "p"⟩ none).1.serialNumber =
      some "SN1" ∧
    (HidDiscovery.pollTick
        (HidDiscovery.pollTick ⟨true, some "SN1", some "p"⟩ none).1
        (some ⟨some "SN1", some "q"⟩)).2 =
      some (.reconnected ⟨some "SN1", some "q"⟩) := by
  have h := c9_reconnect ⟨true, some "SN1", some "p"⟩ "SN1" ⟨some "SN1", some "q"⟩ rfl rfl
  exact ⟨h.1, h.2.1, h.2.2.2 (by decide) rfl⟩

/-! ## C6 supporting lemmas -/

theorem filterChunk_append (a b : List Nat) :
    HidParser.filterChunk (a ++ b) = HidParser.filterChunk a ++ HidParser.filterChunk b :=
  List.filter_append a b

theorem splitCR_of_not_mem {l : List Nat} (h : 13 ∉ l) :
    HidParser.splitCR l = ([], l) := by
  induction l with
  | nil => rfl
  | cons b t ih =>
    have hb : (b == 13) = false :=
      beq_eq_false_iff_ne.mpr fun he => h (he ▸ List.mem_cons_self b t)
    have ht : 13 ∉ t := fun hm => h (List.mem_cons_of_mem b hm)
    simp [HidParser.splitCR, hb, ih ht]

theorem splitCR_snd_not_mem (l : List Nat) : 13 ∉ (HidParser.splitCR l).2 := by
  induction l with
  | nil => simp [HidParser.splitCR]
  | cons b t ih =>
    by_cases hb : b = 13
    · simpa [HidParser.splitCR, hb] using ih
    · have hb' : (b == 13) = false := beq_eq_false_iff_ne.mpr hb
      rcases hsp : HidParser.splitCR t with ⟨ls, r⟩
      have ihr : 13 ∉ r := by rw [hsp] at ih; exact ih
      cases ls with
      | nil =>
        simp only [HidParser.splitCR, hb', Bool.false_eq_true, if_false, hsp]
        intro hmem
        rcases List.mem_cons.mp hmem with h13 | h13
        · exact hb h13.symm
        · exact ihr h13
      | cons l0 ls' =>
        simpa [HidParser.splitCR, hb', hsp] using ihr

theorem splitCR_snd_length_le (l : List Nat) :
    (HidParser.splitCR l).2.length ≤ l.length := by
  induction l with
  | nil => simp [HidParser.splitCR]
  | cons b t ih =>
    by_cases hb : b = 13
    · subst hb
      simp only [HidParser.splitCR, beq_self_eq_true, if_true, List.length_cons]
      exact Nat.le_succ_of_le ih
    · have hb' : (b == 13) = false := beq_eq_false_iff_ne.mpr hb
      rcases hsp : HidParser.splitCR t with ⟨ls, r⟩
      have ihr : r.length ≤ t.length := by rw [hsp] at ih; exact ih
      cases ls with
      | nil =>
        simp only [HidParser.splitCR, hb', Bool.false_eq_true, if_false, hsp,
          List.length_cons]
        omega
      | cons l0 ls' =>
        simp only [HidParser.splitCR, hb', Bool.false_eq_true, if_false, hsp,
          List.length_cons]
        omega

theorem splitCR_append (a b : List Nat) :
    HidParser.splitCR (a ++ b) =
      ((HidParser.splitCR a).1 ++
          (HidParser.splitCR ((HidParser.splitCR a).2 ++ b)).1,
        (HidParser.splitCR ((HidParser.splitCR a).2 ++ b)).2) := by
  induction a with
  | nil => simp [HidParser.splitCR]
  | cons x a' ih =>
    by_cases hx : x = 13
    · subst hx
      simp [HidParser.splitCR, ih]
    · have hx' : (x == 13) = false := beq_eq_false_iff_ne.mpr hx
      rcases h1 : HidParser.splitCR a' with ⟨ls, r⟩
      cases ls with
      | nil =>
        rcases h2 : HidParser.splitCR (r ++ b) with ⟨m, r2⟩
        cases m with
        | nil => simp [HidParser.splitCR, hx', ih, h1, h2]
        | cons m0 ms => simp [HidParser.splitCR, hx', ih, h1, h2]
      | cons l0 ls' =>
        simp [HidParser.splitCR, hx', ih, h1]

theorem splitCR_dropWhile_fst (l : List Nat) :
    ((HidParser.splitCR (l.dropWhile (fun b => b == 13))).1.map HidParser.cleanLine).filter
        (fun x => !x.isEmpty) =
      ((HidParser.splitCR l).1.map HidParser.cleanLine).filter (fun x => !x.isEmpty) := by
  induction l with
  | nil => simp
  | cons b t ih =>
    by_cases hb : b = 13
    · subst hb
      rw [List.dropWhile_cons_of_pos (by simp)]
      rw [ih]
      simp [HidParser.splitCR, HidParser.cleanLine, HidParser.trimBytes, List.filter_cons]
    · rw [List.dropWhile_cons_of_neg (by simpa using hb)]

theorem splitCR_dropWhile_snd (l : List Nat) :
    (HidParser.splitCR (l.dropWhile (fun b => b == 13))).2 = (HidParser.splitCR l).2 := by
  induction l with
  | nil => simp
  | cons b t ih =>
    by_cases hb : b = 13
    · subst hb
      rw [List.dropWhile_cons_of_pos (by simp)]
      rw [ih]
      simp [HidParser.splitCR]
    · rw [List.dropWhile_cons_of_neg (by simpa using hb)]

theorem capBuffer_of_le {l : List Nat} (h : l.length ≤ HidParser.MAX_BUFFER) :
    HidParser.capBuffer l = l := by
  unfold HidParser.capBuffer
  rw [if_neg (by omega)]

theorem processBuffer_of_le {buf : List Nat} (h : buf.length ≤ HidParser.MAX_BUFFER) :
    HidParser.processBuffer buf =
      (((HidParser.splitCR buf).1.map HidParser.cleanLine).filter (fun l => !l.isEmpty),
        (HidParser.splitCR buf).2) := by
  unfold HidParser.processBuffer
  rw [capBuffer_of_le h]
  exact congrArg₂ Prod.mk (splitCR_dropWhile_fst buf) (splitCR_dropWhile_snd buf)

theorem feedChunks_eq (chunks : List (List Nat)) :
    ∀ state : List Nat, 13 ∉ state →
      state.length + (HidParser.filterChunk chunks.flatten).length ≤ HidParser.MAX_BUFFER →
      HidParser.feedChunks state chunks =
        ((HidParser.splitCR (state ++ HidParser.filterChunk chunks.flatten)).2,
          ((HidParser.splitCR (state ++ HidParser.filterChunk chunks.flatten)).1.map
              HidParser.cleanLine).filter (fun l => !l.isEmpty)) := by
  induction chunks with
  | nil =>
    intro state hCR _
    simp [HidParser.feedChunks, HidParser.filterChunk, splitCR_of_not_mem hCR]
  | cons c cs ih =>
    intro state hCR hlen
    rw [List.flatten_cons, filterChunk_append] at hlen ⊢
    by_cases hemp : (HidParser.filterChunk c).isEmpty = true
    · have hc0 : HidParser.filterChunk c = [] := by
        cases hfc : HidParser.filterChunk c with
        | nil => rfl
        | cons y ys => rw [hfc] at hemp; exact absurd hemp (by simp)
      rw [hc0] at hlen ⊢
      have hp : HidParser.parseHidData state c = (state, []) := by
        unfold HidParser.parseHidData
        rw [hc0]
        rfl
      have hrec := ih state hCR (by simpa using hlen)
      simp only [HidParser.feedChunks, hp]
      rw [hrec]
      simp
    · have hlen1 : (state ++ HidParser.filterChunk c).length ≤ HidParser.MAX_BUFFER := by
        rw [List.length_append]
        rw [List.length_append] at hlen
        omega
      have hpb := processBuffer_of_le hlen1
      have hp : HidParser.parseHidData state c =
          ((HidParser.splitCR (state ++ HidParser.filterChunk c)).2,
            ((HidParser.splitCR (state ++ HidParser.filterChunk c)).1.map
                HidParser.cleanLine).filter (fun l => !l.isEmpty)) := by
        simp only [HidParser.parseHidData]
        rw [if_neg hemp]
        rw [hpb]
      have hCR1 : 13 ∉ (HidParser.splitCR (state ++ HidParser.filterChunk c)).2 :=
        splitCR_snd_not_mem _
      have hlen2 : (HidParser.splitCR (state ++ HidParser.filterChunk c)).2.length +
          (HidParser.filterChunk cs.flatten).length ≤ HidParser.MAX_BUFFER := by
        have hle := splitCR_snd_length_le (state ++ HidParser.filterChunk c)
        rw [List.length_append] at hle
        rw [List.length_append] at hlen
        omega
      have hrec := ih _ hCR1 hlen2
      simp only [HidParser.feedChunks, hp]
      rw [hrec]
      have happ := splitCR_append (state ++ HidParser.filterChunk c)
        (HidParser.filterChunk cs.flatten)
      rw [← List.append_assoc, happ]
      simp [List.filter_append]

/-! ## C6 -/

/-- C6 amended: as long as the filtered input fits within the 16 KiB
accumulation cap, the sequence of emitted scan lines is independent of how
the byte stream is chunked, and equals the spec's one-shot description of the
filtered-and-cleaned input (non-printables dropped, split at CR, nulls
stripped, whitespace trimmed, empty lines suppressed).  Beyond the cap the
framer discards the oldest bytes, and chunk boundaries can change the output
(see the counterexample). -/
theorem c6_chunk_invariance (c1 c2 : List (List Nat))
    (hjoin : c1.flatten = c2.flatten)
    (hlen : (HidParser.filterChunk c1.flatten).length ≤ HidParser.MAX_BUFFER) :
    HidParser.emittedLines c1 = HidParser.emittedLines c2 ∧
    HidParser.emittedLines c1 = HidParser.linesSpec c1.flatten := by
  have h1 := feedChunks_eq c1 [] (by simp) (by simpa using hlen)
  have h2 := feedChunks_eq c2 [] (by simp) (by rw [← hjoin]; simpa using hlen)
  unfold HidParser.emittedLines
  rw [h1, h2, hjoin]
  refine ⟨rfl, ?_⟩
  rw [← hjoin]
  simp [HidParser.linesSpec]

/-- C6 witness: a CR split across chunks emits the same line as the unsplit
stream. -/
theorem c6_chunk_invariance_witness :
    ([[65], [13, 66]] : List (List Nat)).flatten = ([[65, 13, 66]] : List (List Nat)).flatten ∧
    (HidParser.filterChunk ([[65], [13, 66]] : List (List Nat)).flatten).length ≤
      HidParser.MAX_BUFFER ∧
    HidParser.emittedLines [[65], [13, 66]] = HidParser.emittedLines [[65, 13, 66]] ∧
    HidParser.emittedLines [[65], [13, 66]] = HidParser.linesSpec [65, 13, 66] := by
  have h := c6_chunk_invariance [[65], [13, 66]] [[65, 13, 66]] (by decide) (by decide)
  exact ⟨by decide, by decide, h.1, h.2⟩

theorem filterChunk_replicate_66 (n : Nat) :
    HidParser.filterChunk (List.replicate n 66) = List.replicate n 66 := by
  induction n with
  | zero => rfl
  | succ m ih =>
    rw [List.replicate_succ]
    simpa [HidParser.filterChunk, List.filter_cons, HidParser.keepByte] using ih

theorem splitCR_replicate_66 (n : Nat) :
    HidParser.splitCR (List.replicate n 66) = ([], List.replicate n 66) :=
  splitCR_of_not_mem (by simp [List.mem_replicate])

theorem processBuffer_eq_cap (buf : List Nat) :
    HidParser.processBuffer buf =
      (((HidParser.splitCR (HidParser.capBuffer buf)).1.map HidParser.cleanLine).filter
          (fun l => !l.isEmpty),
        (HidParser.splitCR (HidParser.capBuffer buf)).2) := by
  unfold HidParser.processBuffer
  exact congrArg₂ Prod.mk (splitCR_dropWhile_fst _) (splitCR_dropWhile_snd _)

theorem capBuffer_big_replicate :
    HidParser.capBuffer (List.replicate 16385 66) = List.replicate 16384 66 := by
  unfold HidParser.capBuffer
  rw [List.length_replicate]
  rw [if_pos (by decide)]
  rw [show (16385 : Nat) - HidParser.MAX_BUFFER = 1 from by decide]
  rw [show (16385 : Nat) = 16384 + 1 from rfl, List.replicate_succ]
  rfl

theorem processBuffer_big_replicate :
    HidParser.processBuffer (List.replicate 16385 66) = ([], List.replicate 16384 66) := by
  rw [processBuffer_eq_cap, capBuffer_big_replicate, splitCR_replicate_66]
  rfl

theorem parseHidData_eq (state data : List Nat)
    (h : (HidParser.filterChunk data).isEmpty = false) :
    HidParser.parseHidData state data =
      ((HidParser.processBuffer (state ++ HidParser.filterChunk data)).2,
        (HidParser.processBuffer (state ++ HidParser.filterChunk data)).1) := by
  rcases hpb : HidParser.processBuffer (state ++ HidParser.filterChunk data) with ⟨l, r⟩
  simp only [HidParser.parseHidData, h, hpb]
  rfl

theorem feedChunks_cons (state c : List Nat) (cs : List (List Nat)) :
    HidParser.feedChunks state (c :: cs) =
      ((HidParser.feedChunks (HidParser.parseHidData state c).1 cs).1,
        (HidParser.parseHidData state c).2 ++
          (HidParser.feedChunks (HidParser.parseHidData state c).1 cs).2) := by
  rcases h1 : HidParser.parseHidData state c with ⟨s1, ls1⟩
  rcases h2 : HidParser.feedChunks s1 cs with ⟨s2, ls2⟩
  simp [HidParser.feedChunks, h1, h2]

theorem parseHidData_big_replicate :
    HidParser.parseHidData [] (List.replicate 16385 66) =
      (List.replicate 16384 66, []) := by
  have hne : (HidParser.filterChunk (List.replicate 16385 66)).isEmpty = false := by
    rw [filterChunk_replicate_66]
    rw [show (16385 : Nat) = 16384 + 1 from rfl, List.replicate_succ, List.isEmpty_cons]
  rw [parseHidData_eq [] _ hne, filterChunk_replicate_66, List.nil_append,
    processBuffer_big_replicate]

theorem capBuffer_big_mixed :
    HidParser.capBuffer ([65, 13] ++ List.replicate 16385 66) =
      List.replicate 16384 66 := by
  have hlen : ([65, 13] ++ List.replicate 16385 66).length = 16387 := by
    rw [List.length_append, List.length_replicate]
    rfl
  unfold HidParser.capBuffer
  rw [hlen]
  rw [if_pos (by decide)]
  rw [show (16387 : Nat) - HidParser.MAX_BUFFER = 3 from by decide]
  rw [show (([65, 13] ++ List.replicate 16385 66) : List Nat).drop 3 =
    (List.replicate 16385 66).drop 1 from rfl]
  rw [show (16385 : Nat) = 16384 + 1 from rfl, List.replicate_succ]
  rfl

theorem processBuffer_big_mixed :
    HidParser.processBuffer ([65, 13] ++ List.replicate 16385 66) =
      ([], List.replicate 16384 66) := by
  rw [processBuffer_eq_cap, capBuffer_big_mixed, splitCR_replicate_66]
  rfl

theorem parseHidData_big_mixed :
    HidParser.parseHidData [] ([65, 13] ++ List.replicate 16385 66) =
      (List.replicate 16384 66, []) := by
  have hfc : HidParser.filterChunk ([65, 13] ++ List.replicate 16385 66) =
      [65, 13] ++ List.replicate 16385 66 := by
    rw [filterChunk_append, filterChunk_replicate_66]
    rfl
  have hne : (HidParser.filterChunk ([65, 13] ++ List.replicate 16385 66)).isEmpty =
      false := by
    rw [hfc, List.cons_append, List.isEmpty_cons]
  rw [parseHidData_eq [] _ hne, hfc, List.nil_append, processBuffer_big_mixed]

/-- C6 counterexample: the same byte sequence — "A", CR, then 16385 bytes of
"B" — emits the line "A" when the CR arrives in its own early chunk, but emits
nothing when fed as a single chunk, because the 16 KiB cap discards the CR
before it is processed.  Chunk-boundary invariance therefore fails for streams
that overflow the cap. -/
theorem c6_counterexample :
    ([[65, 13], List.replicate 16385 66] : List (List Nat)).flatten =
      ([[65, 13] ++ List.replicate 16385 66] : List (List Nat)).flatten ∧
    HidParser.emittedLines [[65, 13], List.replicate 16385 66] = [[65]] ∧
    HidParser.emittedLines [[65, 13] ++ List.replicate 16385 66] = [] ∧
    HidParser.emittedLines [[65, 13], List.replicate 16385 66] ≠
      HidParser.emittedLines [[65, 13] ++ List.replicate 16385 66] := by
  have hfl : ([[65, 13], List.replicate 16385 66] : List (List Nat)).flatten =
      ([[65, 13] ++ List.replicate 16385 66] : List (List Nat)).flatten := by
    rw [List.flatten_cons, List.flatten_cons, List.flatten_nil, List.flatten_cons,
      List.flatten_nil, List.append_nil, List.append_nil]
  have hA : HidParser.emittedLines [[65, 13], List.replicate 16385 66] = [[65]] := by
    show (HidParser.feedChunks [] [[65, 13], List.replicate 16385 66]).2 = [[65]]
    rw [feedChunks_cons]
    rw [show HidParser.parseHidData [] [65, 13] = ([], [[65]]) from rfl]
    show [[65]] ++ (HidParser.feedChunks [] [List.replicate 16385 66]).2 = [[65]]
    rw [feedChunks_cons, parseHidData_big_replicate]
    rfl
  have hB : HidParser.emittedLines [[65, 13] ++ List.replicate 16385 66] = [] := by
    show (HidParser.feedChunks [] [[65, 13] ++ List.replicate 16385 66]).2 = []
    rw [feedChunks_cons, parseHidData_big_mixed]
    rfl
  refine ⟨hfl, hA, hB, ?_⟩
  rw [hA, hB]
  exact List.cons_ne_nil _ _
